import Mathlib

/-!
Verification of the SkillSwap recommendation core.

Shallow embedding of `src/ai/recommendation/service.py` (functions
`get_recommendations` and `generate_learning_path`).

Conventions of the embedding:
* Python floats are embedded as exact rational numbers (`ℚ`); the claims
  under scrutiny assume "well-defined real number" scores, so exact
  arithmetic is the intended semantics.
* The skill encoder (`encode_skills`, imported from `ai/recommendation/model.py`,
  a file that is not part of the sources) is kept abstract: the scoring
  pipeline is parametrised by a per-catalog-entry similarity function
  `simOne : List String → String → ℚ` (the cosine similarity of the user
  vector with that catalog entry's vector).  All ranking / feedback /
  path claims hold for every such function.  For the division-by-zero
  claim a concrete spec-modelled encoder is supplied further below.
* `np.argsort` (ascending sort of indices, unspecified tie-break) is
  modelled by a stable insertion sort of `List.range n` keyed by score;
  the source's tie-break is explicitly unspecified, so any total
  preorder-respecting sort is a faithful instantiation.
* Python's `similarities[-5:][::-1]` is `(·.drop (n - 5)).reverse`.
-/

namespace SkillSwap

/-- Feedback payload: `{'liked': [...], 'disliked': [...]}` as validated by
`api.py`'s `Feedback` pydantic model (both lists default to empty). -/
structure Feedback where
  liked : List String
  disliked : List String
deriving Repr, DecidableEq

/-- Result mapping returned by `get_recommendations` (service.py lines 24-28). -/
structure RecommendationResult where
  recommended_skills : List String
  recommended_users : List String
  learning_path : List String
deriving Repr, DecidableEq

/-- Feedback adjustment for the score at one catalog position
(service.py lines 13-16): the loop body at index `i` reads only
`all_skills[i]` and rescales only `similarities[i]`, first by 1.2 when the
skill is in `liked`, then by 0.8 when it is in `disliked`. -/
def adjustScore (f : Feedback) (skill : String) (s : ℚ) : ℚ :=
  if skill ∈ f.disliked
  then (if skill ∈ f.liked then s * (6 / 5) else s) * (4 / 5)
  else (if skill ∈ f.liked then s * (6 / 5) else s)

/-- The feedback block (service.py lines 12-16): skipped entirely when
`feedback` is `None`, otherwise each score is adjusted against the
same-index catalog entry. -/
def adjustScores (fb : Option Feedback) (allSkills : List String) (sims : List ℚ) :
    List ℚ :=
  match fb with
  | none => sims
  | some f => List.zipWith (adjustScore f) allSkills sims

/-- `np.argsort(similarities)` (service.py line 18): the indices
`0, ..., n-1` sorted ascending by score.  The source's tie-break is
unspecified; a stable insertion sort is one faithful instantiation. -/
def argsortAsc (xs : List ℚ) : List Nat :=
  List.insertionSort (fun i j => xs.getD i 0 ≤ xs.getD j 0) (List.range xs.length)

/-- `np.argsort(similarities)[-5:][::-1]` (service.py line 18): the last
five entries of the ascending argsort (all of them when there are fewer
than five), reversed — i.e. the top-scoring indices in descending order. -/
def topIndices (xs : List ℚ) : List Nat :=
  ((argsortAsc xs).drop (xs.length - 5)).reverse

/-- `generate_learning_path` (service.py lines 30-37). -/
def generate_learning_path (current_skills recommended_skills : List String) :
    List String :=
  ["Foundation Skills"]
    ++ (if 2 < current_skills.length then ["Intermediate Topics"] else [])
    ++ recommended_skills.take 3
    ++ ["Advanced Mastery"]

/-- `get_recommendations` (service.py lines 4-28), parametrised by the
per-entry similarity `simOne` (see the file header).  `user_exchanges` is
accepted and never read, exactly as in the source. -/
def get_recommendations (simOne : List String → String → ℚ)
    (user_skills all_skills user_exchanges : List String)
    (feedback : Option Feedback) : RecommendationResult :=
  let similarities := all_skills.map (simOne user_skills)
  let adjusted := adjustScores feedback all_skills similarities
  let recommended_skills := (topIndices adjusted).map (fun i => all_skills.getD i "")
  { recommended_skills := recommended_skills
    recommended_users := []
    learning_path := generate_learning_path user_skills recommended_skills }

/-- Modelled from the spec: `encode_skills` (imported from
`ai/recommendation/model.py`, not among the sources) maps one skill name to
one fixed-dimension numeric vector; per §4.1 the scheme itself is an
implementation detail, required only to be deterministic and pure. -/
def encodeSkill (name : String) : List ℚ :=
  [(name.length : ℚ), ((name.toList.map Char.toNat).sum : ℚ)]

def addVec (v w : List ℚ) : List ℚ := List.zipWith (· + ·) v w

/-- Modelled from the spec: the user profile vector built from the whole
`user_skills` list (§4.2 step 1, §9); §9 asks for a pooling aggregation,
realised here as sum-pooling, so an empty `user_skills` yields the zero
vector — matching §7, where the empty user profile has L2 norm exactly 0. -/
def encodeUser (user_skills : List String) : List ℚ :=
  user_skills.foldr (fun s acc => addVec (encodeSkill s) acc) [0, 0]

/-- Dot product (`np.dot` of one catalog row with the user vector). -/
def dotQ (v w : List ℚ) : ℚ := (List.zipWith (· * ·) v w).sum

def normSq (v : List ℚ) : ℚ := dotQ v v

/-- `np.linalg.norm`: the L2 norm, a real number. -/
noncomputable def l2norm (v : List ℚ) : ℝ := Real.sqrt ((normSq v : ℚ) : ℝ)

/-- The similarity of service.py line 9 for one catalog row: the dot product
divided by the product of the two L2 norms — the division is unguarded,
exactly as in the source. -/
noncomputable def cosineSimilarity (v u : List ℚ) : ℝ :=
  ((dotQ v u : ℚ) : ℝ) / (l2norm v * l2norm u)

/-- The full similarity vector of service.py line 9 under the spec-modelled
encoder. -/
noncomputable def realSimilarities (user_skills all_skills : List String) :
    List ℝ :=
  all_skills.map (fun s => cosineSimilarity (encodeSkill s) (encodeUser user_skills))

/-- The final (feedback-adjusted) score list of a call: service.py lines
7-16 composed — per-entry similarities followed by the feedback block. -/
def finalScores (simOne : List String → String → ℚ) (us as : List String)
    (fb : Option Feedback) : List ℚ :=
  adjustScores fb as (as.map (simOne us))

theorem argsortAsc_perm (xs : List ℚ) :
    List.Perm (argsortAsc xs) (List.range xs.length) :=
  List.perm_insertionSort _ _

theorem argsortAsc_length (xs : List ℚ) : (argsortAsc xs).length = xs.length := by
  rw [(argsortAsc_perm xs).length_eq, List.length_range]

theorem argsortAsc_sorted (xs : List ℚ) :
    (argsortAsc xs).Sorted (fun i j => xs.getD i 0 ≤ xs.getD j 0) := by
  haveI : IsTotal Nat (fun i j => xs.getD i 0 ≤ xs.getD j 0) :=
    ⟨fun _ _ => le_total _ _⟩
  haveI : IsTrans Nat (fun i j => xs.getD i 0 ≤ xs.getD j 0) :=
    ⟨fun _ _ _ hab hbc => le_trans hab hbc⟩
  exact List.sorted_insertionSort _ _

theorem topIndices_length (xs : List ℚ) :
    (topIndices xs).length = min 5 xs.length := by
  unfold topIndices
  rw [List.length_reverse, List.length_drop, argsortAsc_length]
  omega

/-- The selected indices are listed in weakly descending score order. -/
theorem topIndices_sorted (xs : List ℚ) :
    (topIndices xs).Sorted (fun i j => xs.getD j 0 ≤ xs.getD i 0) := by
  unfold topIndices
  rw [List.Sorted, List.pairwise_reverse]
  exact (argsortAsc_sorted xs).sublist (List.drop_sublist _ _)

/-- Every selected index scores at least as high as every unselected
in-range index: the selection really is "the top five". -/
theorem topIndices_ge_not_mem (xs : List ℚ) {i j : Nat}
    (hi : i ∈ topIndices xs) (hj : j < xs.length) (hnj : j ∉ topIndices xs) :
    xs.getD j 0 ≤ xs.getD i 0 := by
  have hiA : i ∈ (argsortAsc xs).drop (xs.length - 5) := List.mem_reverse.mp hi
  have hjA : j ∈ argsortAsc xs :=
    (argsortAsc_perm xs).mem_iff.mpr (List.mem_range.mpr hj)
  have hsplit : argsortAsc xs
      = (argsortAsc xs).take (xs.length - 5) ++ (argsortAsc xs).drop (xs.length - 5) :=
    (List.take_append_drop _ _).symm
  have hjtake : j ∈ (argsortAsc xs).take (xs.length - 5) := by
    rcases List.mem_append.mp (hsplit ▸ hjA) with h | h
    · exact h
    · exact absurd (List.mem_reverse.mpr h) hnj
  have hsorted := argsortAsc_sorted xs
  rw [List.Sorted, hsplit, List.pairwise_append] at hsorted
  exact hsorted.2.2 j hjtake i hiA

/-- Every element of `recommended_skills` is a catalog entry: `topIndices`
only produces indices below the score list's length, and the score list of
`get_recommendations` has the catalog's length. -/
theorem mem_of_mem_topIndices {xs : List ℚ} {i : Nat} (h : i ∈ topIndices xs) :
    i < xs.length := by
  have h1 : i ∈ argsortAsc xs := by
    have := List.mem_reverse.mp h
    exact List.mem_of_mem_drop this
  have h2 : i ∈ List.range xs.length :=
    (List.mem_insertionSort (fun i j => xs.getD i 0 ≤ xs.getD j 0)).mp h1
  exact List.mem_range.mp h2

theorem adjustScores_length (fb : Option Feedback) (allSkills : List String)
    (sims : List ℚ) (h : sims.length = allSkills.length) :
    (adjustScores fb allSkills sims).length = sims.length := by
  cases fb with
  | none => rfl
  | some f => simp [adjustScores, h]

theorem recommended_skills_subset (simOne : List String → String → ℚ)
    (us as ue : List String) (fb : Option Feedback) :
    ∀ s ∈ (get_recommendations simOne us as ue fb).recommended_skills, s ∈ as := by
  intro s hs
  simp only [get_recommendations, List.mem_map] at hs
  obtain ⟨i, hi, rfl⟩ := hs
  have hlt : i < (adjustScores fb as (as.map (simOne us))).length :=
    mem_of_mem_topIndices hi
  have hlen : (adjustScores fb as (as.map (simOne us))).length = as.length := by
    rw [adjustScores_length fb as _ (List.length_map as (simOne us)),
      List.length_map]
  rw [hlen] at hlt
  rw [List.getD_eq_getElem _ _ hlt]
  exact List.getElem_mem hlt

theorem finalScores_length (simOne : List String → String → ℚ)
    (us as : List String) (fb : Option Feedback) :
    (finalScores simOne us as fb).length = as.length := by
  unfold finalScores
  rw [adjustScores_length fb as _ (List.length_map as (simOne us)), List.length_map]

theorem recommended_skills_eq (simOne : List String → String → ℚ)
    (us as ue : List String) (fb : Option Feedback) :
    (get_recommendations simOne us as ue fb).recommended_skills
      = (topIndices (finalScores simOne us as fb)).map (fun i => as.getD i "") := rfl

/-- C1: `recommended_skills` lists the catalog entries at the selected
indices; the selected indices carry weakly descending final scores, every
selected index scores at least as high as every unselected in-range index,
and exactly `min 5 n` entries are selected. -/
theorem recommended_skills_top5_desc (simOne : List String → String → ℚ)
    (us as ue : List String) (fb : Option Feedback)
    (hus : us ≠ []) (has : as ≠ []) :
    (get_recommendations simOne us as ue fb).recommended_skills
      = (topIndices (finalScores simOne us as fb)).map (fun i => as.getD i "")
    ∧ ((topIndices (finalScores simOne us as fb)).map
        (fun i => (finalScores simOne us as fb).getD i 0)).Sorted (· ≥ ·)
    ∧ (∀ i ∈ topIndices (finalScores simOne us as fb),
        ∀ j < as.length, j ∉ topIndices (finalScores simOne us as fb) →
          (finalScores simOne us as fb).getD j 0
            ≤ (finalScores simOne us as fb).getD i 0)
    ∧ (get_recommendations simOne us as ue fb).recommended_skills.length
        = min 5 as.length := by
  refine ⟨rfl, ?_, ?_, ?_⟩
  · exact (topIndices_sorted (finalScores simOne us as fb)).map _ (fun _ _ h => h)
  · intro i hi j hj hnj
    exact topIndices_ge_not_mem _ hi (by rwa [finalScores_length]) hnj
  · rw [recommended_skills_eq, List.length_map, topIndices_length,
      finalScores_length]

/-- C1 witness. -/
theorem recommended_skills_top5_desc_witness :
    (["python"] : List String) ≠ []
    ∧ (["java", "go"] : List String) ≠ []
    ∧ (get_recommendations (fun _ s => (s.length : ℚ)) ["python"] ["java", "go"]
        [] none).recommended_skills.length
        = min 5 (["java", "go"] : List String).length :=
  ⟨by decide, by decide,
    (recommended_skills_top5_desc (fun _ s => (s.length : ℚ)) ["python"]
      ["java", "go"] [] none (by decide) (by decide)).2.2.2⟩

/-- C2: for non-empty catalogs and user skill lists, `recommended_skills`
has exactly `min 5 n` entries and each of them is a catalog entry. -/
theorem recommended_skills_length_mem (simOne : List String → String → ℚ)
    (us as ue : List String) (fb : Option Feedback)
    (hus : us ≠ []) (has : as ≠ []) :
    (get_recommendations simOne us as ue fb).recommended_skills.length
      = min 5 as.length
    ∧ ∀ s ∈ (get_recommendations simOne us as ue fb).recommended_skills, s ∈ as := by
  constructor
  · rw [recommended_skills_eq, List.length_map, topIndices_length,
      finalScores_length]
  · exact recommended_skills_subset simOne us as ue fb

/-- C2 witness. -/
theorem recommended_skills_length_mem_witness :
    (["a", "b", "c"] : List String) ≠ []
    ∧ (["java", "go", "rust"] : List String) ≠ []
    ∧ (get_recommendations (fun _ s => (s.length : ℚ)) ["a", "b", "c"]
        ["java", "go", "rust"] [] none).recommended_skills.length
        = min 5 (["java", "go", "rust"] : List String).length :=
  ⟨by decide, by decide,
    (recommended_skills_length_mem (fun _ s => (s.length : ℚ)) ["a", "b", "c"]
      ["java", "go", "rust"] [] none (by decide) (by decide)).1⟩

theorem finalScores_getD_none (simOne : List String → String → ℚ)
    (us as : List String) (i : Nat) (hi : i < as.length) :
    (finalScores simOne us as none).getD i 0 = simOne us (as.getD i "") := by
  show ((as.map (simOne us)).getD i 0) = simOne us (as.getD i "")
  have hl : i < (as.map (simOne us)).length := by rwa [List.length_map]
  rw [List.getD_eq_getElem _ _ hl, List.getElem_map, List.getD_eq_getElem _ _ hi]

theorem finalScores_getD_some (simOne : List String → String → ℚ)
    (us as : List String) (f : Feedback) (i : Nat) (hi : i < as.length) :
    (finalScores simOne us as (some f)).getD i 0
      = adjustScore f (as.getD i "") ((finalScores simOne us as none).getD i 0) := by
  show (List.zipWith (adjustScore f) as (as.map (simOne us))).getD i 0
      = adjustScore f (as.getD i "") ((as.map (simOne us)).getD i 0)
  have hm : i < (as.map (simOne us)).length := by rwa [List.length_map]
  have hz : i < (List.zipWith (adjustScore f) as (as.map (simOne us))).length := by
    rw [List.length_zipWith, List.length_map]
    omega
  rw [List.getD_eq_getElem _ _ hz, List.getElem_zipWith,
    List.getD_eq_getElem _ _ hi, List.getD_eq_getElem _ _ hm]

theorem adjustScore_liked_only (f : Feedback) (skill : String) (s : ℚ)
    (hl : skill ∈ f.liked) (hd : skill ∉ f.disliked) :
    adjustScore f skill s = 6 / 5 * s := by
  unfold adjustScore
  rw [if_neg hd, if_pos hl, mul_comm]

theorem adjustScore_disliked_only (f : Feedback) (skill : String) (s : ℚ)
    (hl : skill ∉ f.liked) (hd : skill ∈ f.disliked) :
    adjustScore f skill s = 4 / 5 * s := by
  unfold adjustScore
  rw [if_pos hd, if_neg hl, mul_comm]

theorem adjustScore_both (f : Feedback) (skill : String) (s : ℚ)
    (hl : skill ∈ f.liked) (hd : skill ∈ f.disliked) :
    adjustScore f skill s = 24 / 25 * s := by
  unfold adjustScore
  rw [if_pos hd, if_pos hl]
  ring

theorem adjustScore_neither (f : Feedback) (skill : String) (s : ℚ)
    (hl : skill ∉ f.liked) (hd : skill ∉ f.disliked) :
    adjustScore f skill s = s := by
  unfold adjustScore
  rw [if_neg hd, if_neg hl]

/-- C3: relative to the same call without feedback, a skill only in `liked`
has its pre-rank score multiplied by 1.2 (a strict increase for positive
baselines), a skill only in `disliked` by 0.8 (a strict decrease for
positive baselines), and a skill in both by the composed 0.96. -/
theorem feedback_multipliers (simOne : List String → String → ℚ)
    (us as : List String) (f : Feedback) (i : Nat) (hi : i < as.length) :
    (as.getD i "" ∈ f.liked → as.getD i "" ∉ f.disliked →
      (finalScores simOne us as (some f)).getD i 0
          = 6 / 5 * (finalScores simOne us as none).getD i 0
        ∧ (0 < (finalScores simOne us as none).getD i 0 →
            (finalScores simOne us as none).getD i 0
              < (finalScores simOne us as (some f)).getD i 0))
    ∧ (as.getD i "" ∉ f.liked → as.getD i "" ∈ f.disliked →
      (finalScores simOne us as (some f)).getD i 0
          = 4 / 5 * (finalScores simOne us as none).getD i 0
        ∧ (0 < (finalScores simOne us as none).getD i 0 →
            (finalScores simOne us as (some f)).getD i 0
              < (finalScores simOne us as none).getD i 0))
    ∧ (as.getD i "" ∈ f.liked → as.getD i "" ∈ f.disliked →
      (finalScores simOne us as (some f)).getD i 0
          = 24 / 25 * (finalScores simOne us as none).getD i 0) := by
  rw [finalScores_getD_some simOne us as f i hi]
  refine ⟨fun hl hd => ?_, fun hl hd => ?_, fun hl hd => ?_⟩
  · rw [adjustScore_liked_only f _ _ hl hd]
    exact ⟨rfl, fun hpos => by linarith⟩
  · rw [adjustScore_disliked_only f _ _ hl hd]
    exact ⟨rfl, fun hpos => by linarith⟩
  · rw [adjustScore_both f _ _ hl hd]

/-- C3 witness. -/
theorem feedback_multipliers_witness :
    0 < (["java", "go"] : List String).length
    ∧ (finalScores (fun _ s => (s.length : ℚ)) ["x"] ["java", "go"]
          (some ⟨["java"], ["go"]⟩)).getD 0 0
        = 6 / 5 * (finalScores (fun _ s => (s.length : ℚ)) ["x"] ["java", "go"]
          none).getD 0 0 :=
  ⟨by decide,
    ((feedback_multipliers (fun _ s => (s.length : ℚ)) ["x"] ["java", "go"]
      ⟨["java"], ["go"]⟩ 0 (by decide)).1 (by decide) (by decide)).1⟩

/-- C10: a catalog skill named in neither `liked` nor `disliked` keeps
exactly the score it gets from the same call without feedback. -/
theorem feedback_frame (simOne : List String → String → ℚ)
    (us as : List String) (f : Feedback) (i : Nat) (hi : i < as.length)
    (hl : as.getD i "" ∉ f.liked) (hd : as.getD i "" ∉ f.disliked) :
    (finalScores simOne us as (some f)).getD i 0
      = (finalScores simOne us as none).getD i 0 := by
  rw [finalScores_getD_some simOne us as f i hi, adjustScore_neither f _ _ hl hd]

/-- C10 witness. -/
theorem feedback_frame_witness :
    0 < (["java", "go"] : List String).length
    ∧ ("go" : String) ∉ (["java"] : List String)
    ∧ ("go" : String) ∉ (["rust"] : List String)
    ∧ (finalScores (fun _ s => (s.length : ℚ)) ["x"] ["java", "go"]
          (some ⟨["java"], ["rust"]⟩)).getD 1 0
        = (finalScores (fun _ s => (s.length : ℚ)) ["x"] ["java", "go"]
          none).getD 1 0 :=
  ⟨by decide, by decide, by decide,
    feedback_frame (fun _ s => (s.length : ℚ)) ["x"] ["java", "go"]
      ⟨["java"], ["rust"]⟩ 1 (by decide) (by decide) (by decide)⟩

theorem getLast?_append_singleton (l : List String) (a : String) :
    (l ++ [a]).getLast? = some a := by
  rw [List.getLast?_append_cons]
  rfl

theorem learning_path_eq (simOne : List String → String → ℚ)
    (us as ue : List String) (fb : Option Feedback) :
    (get_recommendations simOne us as ue fb).learning_path
      = ["Foundation Skills"]
        ++ (if 2 < us.length then ["Intermediate Topics"] else [])
        ++ (get_recommendations simOne us as ue fb).recommended_skills.take 3
        ++ ["Advanced Mastery"] := rfl

/-- C4: the learning path is exactly the "Foundation Skills" marker, then
"Intermediate Topics" when more than two user skills were supplied, then
the first three recommended skills, then the "Advanced Mastery" marker;
in particular it starts with "Foundation Skills" and ends with
"Advanced Mastery". -/
theorem learning_path_structure (simOne : List String → String → ℚ)
    (us as ue : List String) (fb : Option Feedback) :
    (get_recommendations simOne us as ue fb).learning_path
      = ["Foundation Skills"]
        ++ (if 2 < us.length then ["Intermediate Topics"] else [])
        ++ (get_recommendations simOne us as ue fb).recommended_skills.take 3
        ++ ["Advanced Mastery"]
    ∧ (get_recommendations simOne us as ue fb).learning_path.head?
        = some "Foundation Skills"
    ∧ (get_recommendations simOne us as ue fb).learning_path.getLast?
        = some "Advanced Mastery" := by
  refine ⟨rfl, rfl, ?_⟩
  show (["Foundation Skills"]
      ++ (if 2 < us.length then ["Intermediate Topics"] else [])
      ++ ((topIndices _).map fun i => as.getD i "").take 3
      ++ ["Advanced Mastery"]).getLast? = some "Advanced Mastery"
  exact getLast?_append_singleton _ _

/-- C5 counterexample: a catalog skill literally named "Intermediate Topics"
reaches the learning path through the recommended skills, so the path
contains "Intermediate Topics" although only one user skill was supplied. -/
theorem learning_path_intermediate_cex :
    "Intermediate Topics" ∈ (get_recommendations (fun _ _ => (0 : ℚ)) ["python"]
      ["Intermediate Topics"] [] none).learning_path
    ∧ ¬ 2 < (["python"] : List String).length := by
  constructor
  · show "Intermediate Topics" ∈ generate_learning_path ["python"] _
    decide
  · decide

/-- C5 (amended): provided no catalog entry is itself named
"Intermediate Topics", the learning path contains "Intermediate Topics"
iff more than two user skills were supplied. -/
theorem learning_path_intermediate_iff (simOne : List String → String → ℚ)
    (us as ue : List String) (fb : Option Feedback)
    (h : "Intermediate Topics" ∉ as) :
    "Intermediate Topics" ∈ (get_recommendations simOne us as ue fb).learning_path
      ↔ 2 < us.length := by
  have hrec : "Intermediate Topics"
      ∉ (get_recommendations simOne us as ue fb).recommended_skills.take 3 := by
    intro hmem
    exact h (recommended_skills_subset simOne us as ue fb _ (List.mem_of_mem_take hmem))
  have hne1 : ("Intermediate Topics" : String) ≠ "Foundation Skills" := by decide
  have hne2 : ("Intermediate Topics" : String) ≠ "Advanced Mastery" := by decide
  rw [learning_path_eq]
  constructor
  · intro hmem
    by_contra h2
    rw [if_neg h2, List.append_nil] at hmem
    rcases List.mem_append.mp hmem with h' | h'
    · rcases List.mem_append.mp h' with h'' | h''
      · exact hne1 (by simpa using h'')
      · exact hrec h''
    · exact hne2 (by simpa using h')
  · intro h2
    rw [if_pos h2]
    refine List.mem_append.mpr (Or.inl (List.mem_append.mpr
      (Or.inl (List.mem_append.mpr (Or.inr ?_)))))
    simp

/-- C5 amended-claim witness. -/
theorem learning_path_intermediate_iff_witness :
    "Intermediate Topics" ∉ (["java", "go"] : List String)
    ∧ ("Intermediate Topics" ∈ (get_recommendations (fun _ _ => (0 : ℚ))
          ["a", "b", "c"] ["java", "go"] [] none).learning_path
        ↔ 2 < (["a", "b", "c"] : List String).length) :=
  ⟨by decide, learning_path_intermediate_iff (fun _ _ => (0 : ℚ))
    ["a", "b", "c"] ["java", "go"] [] none (by decide)⟩

/-- C6: the similarity computation has no zero-divisor guard.  With empty
`user_skills` the user profile is the zero vector, its L2 norm is exactly
0, so every catalog entry's cosine division is performed with divisor 0;
the computation still yields a value (the division is total — no error is
raised or classified), matching the guard-free source. -/
theorem division_by_zero_reachable :
    l2norm (encodeUser []) = 0
    ∧ l2norm (encodeSkill "java") * l2norm (encodeUser []) = 0
    ∧ realSimilarities [] ["java"]
        = [((dotQ (encodeSkill "java") (encodeUser []) : ℚ) : ℝ) / 0] := by
  have hn : normSq (encodeUser []) = 0 := by
    norm_num [encodeUser, normSq, dotQ]
  have hl : l2norm (encodeUser []) = 0 := by
    unfold l2norm
    rw [hn]
    simp
  refine ⟨hl, by rw [hl, mul_zero], ?_⟩
  unfold realSimilarities
  simp only [List.map]
  unfold cosineSimilarity
  rw [hl, mul_zero]

/-- C7: `recommended_users` is always the empty sequence
(service.py line 22). -/
theorem recommended_users_empty (simOne : List String → String → ℚ)
    (us as ue : List String) (fb : Option Feedback) :
    (get_recommendations simOne us as ue fb).recommended_users = [] := rfl

/-- C8: `get_recommendations` is deterministic and side-effect free —
identical inputs yield identical results.  The embedding is a total pure
function, which is faithful: the source reads no state, mutates nothing
and calls only deterministic library routines. -/
theorem get_recommendations_deterministic (simOne : List String → String → ℚ)
    (us₁ us₂ as₁ as₂ ue₁ ue₂ : List String) (fb₁ fb₂ : Option Feedback)
    (hus : us₁ = us₂) (has : as₁ = as₂) (hue : ue₁ = ue₂) (hfb : fb₁ = fb₂) :
    get_recommendations simOne us₁ as₁ ue₁ fb₁
      = get_recommendations simOne us₂ as₂ ue₂ fb₂ := by
  rw [hus, has, hue, hfb]

/-- C8 witness. -/
theorem get_recommendations_deterministic_witness :
    get_recommendations (fun _ _ => (0 : ℚ)) ["python"] ["java"] [] none
      = get_recommendations (fun _ _ => (0 : ℚ)) ["python"] ["java"] [] none :=
  get_recommendations_deterministic (fun _ _ => (0 : ℚ)) ["python"] ["python"]
    ["java"] ["java"] [] [] none none rfl rfl rfl rfl

/-- C9: the result does not depend on `user_exchanges`: the parameter is
bound but never read (service.py lines 4-28). -/
theorem get_recommendations_exchanges_irrelevant (simOne : List String → String → ℚ)
    (us as ue₁ ue₂ : List String) (fb : Option Feedback) :
    get_recommendations simOne us as ue₁ fb
      = get_recommendations simOne us as ue₂ fb := rfl

end SkillSwap
